import Mathlib

/-!
Verification development for the rust-json-parser repository: a shallow
embedding of the lexer (src/parser/lexer.rs), the structural validator
(src/parser/parser.rs), the public entry point JSONParser::check_valid
(src/parser/mod.rs), the token model (src/parser/token.rs) and the error
type (src/parser/error.rs), together with theorems settling the claims
about the specification.
-/

set_option maxRecDepth 200000

namespace RustJson

/-- Mirror of `JSONError` in src/parser/error.rs: a message paired with a
line number (an `i64` in the source; line numbers in the program never
approach the `i64` range, so `Int` is used). -/
structure JSONError where
  message : String
  line : Int
deriving DecidableEq, Repr

/-- Mirror of `impl fmt::Display for JSONError` in src/parser/error.rs:
`write!(f, "{}: at line {}", self.message, self.line)`. -/
def JSONError.render (e : JSONError) : String :=
  e.message ++ ": at line " ++ toString e.line

/-- Single-quote helper: Rust's `format!("Unexpected '{}'", c)` and
`write!(f, "'{}'", token_str)` wrap their payload in ASCII apostrophes. -/
def quoted (s : String) : String := "'" ++ s ++ "'"

/-- The lexical error built at src/parser/lexer.rs line 269:
`JSONError::new(format!("Unexpected '{}'", c), 1)`. The line number is the
literal constant 1 in the source (the TODO comment at line 277 reads
"implement line count"). -/
def unexpectedChar (c : Char) : JSONError :=
  ⟨"Unexpected " ++ quoted (String.singleton c), 1⟩

/-- An exact rational in lowest terms (numerator, positive denominator),
used to model finite `f64` values. -/
structure Q where
  num : Int
  den : Nat
deriving DecidableEq, Repr

/-- Model of Rust `f64` values as they occur in this program. The program
never performs arithmetic on the parsed numbers; it only stores them in
tokens and compares tokens with `PartialEq`. The claims only involve
numbers whose nearest-double rounding is exact (0 and 1) or which overflow
the finite `f64` range, so finite values are kept as exact rationals
(rounding to 53-bit significands is not modelled) and the two infinities
are explicit constructors. Rust's `-0.0 == 0.0` is `true` under
`PartialEq`, matching the single rational zero here; `NaN` never arises
because the lexer only feeds well-formed literals to its float parse. -/
inductive F64 where
  | inf
  | neginf
  | finite (q : Q)
deriving DecidableEq, Repr

/-- Mirror of `enum Token` in src/parser/token.rs. A string literal's text
is carried as a list of characters. `DoubleQuotes` exists in the source's
token type but is never produced by the lexer. -/
inductive Token where
  | OpenBrace
  | ClosedBrace
  | OpenBracket
  | ClosedBracket
  | NewLine
  | DoubleQuotes
  | Column
  | Comma
  | StringLiteral (s : List Char)
  | Number (v : F64)
  | BoolTrue
  | BoolFalse
  | Null
deriving DecidableEq, Repr

/-- Mirror of the `match` inside `impl fmt::Display for Token`
(src/parser/token.rs lines 30-48), giving the text placed between the two
apostrophes. -/
def tokenInner : Token → String
  | .OpenBrace => "\x7b"
  | .ClosedBrace => "\x7d"
  | .NewLine => "\n"
  | .DoubleQuotes => "\""
  | .Column => ":"
  | .Comma => ","
  | .Number _ => "<number>"
  | .BoolTrue => "<boolean>"
  | .BoolFalse => "<boolean>"
  | .Null => "<null>"
  | .StringLiteral _ => "<string literal>"
  | .OpenBracket => "["
  | .ClosedBracket => "]"

/-- Rendering of a token in diagnostics: `write!(f, "'{}'", token_str)`. -/
def tokenStr (t : Token) : String := quoted (tokenInner t)

/-- The structural error built by `format!("Unexpected {}", token)`
(src/parser/parser.rs lines 99 and 168), always at line 1. -/
def unexpectedToken (t : Token) : JSONError :=
  ⟨"Unexpected " ++ tokenStr t, 1⟩

/-- Mirror of `enum NumberState` in src/parser/lexer.rs lines 5-17. -/
inductive NumberState where
  | Sign
  | Exp
  | Point
  | ExpSign
  | LeadingZero
  | Integer
  | Decimal
  | ExpLeadingZero
  | ExpInteger
deriving DecidableEq, Repr

/-- Mirror of `NumberState::is_final` (src/parser/lexer.rs lines 20-29). -/
def NumberState.is_final : NumberState → Bool
  | .LeadingZero => true
  | .Integer => true
  | .Decimal => true
  | .ExpLeadingZero => true
  | .ExpInteger => true
  | _ => false

/-- Mirror of `NumberState::is_exp` (src/parser/lexer.rs lines 31-33). -/
def NumberState.is_exp (n : NumberState) : Bool :=
  n = NumberState.ExpLeadingZero || n = NumberState.ExpInteger

/-- Mirror of `NumberState::is_leading_zero` (src/parser/lexer.rs
lines 35-37). -/
def NumberState.is_leading_zero (n : NumberState) : Bool :=
  n = NumberState.LeadingZero || n = NumberState.ExpLeadingZero

/-- Mirror of the lexer's `enum State` (src/parser/lexer.rs lines 40-53). -/
inductive LexState where
  | Normal
  | ValueNumber (n : NumberState)
  | ValueTrue (c : Char)
  | ValueFalse (c : Char)
  | ValueNull (c : Char)
  | ValueStringLiteral
  | Escaping
  | Hex (i : Nat)
deriving DecidableEq, Repr

/-- Rust's `'0'..='9'` character range. -/
def isDigit (c : Char) : Bool := decide ('0' ≤ c) && decide (c ≤ '9')

/-- Rust's `'1'..='9'` character range. -/
def isDigit19 (c : Char) : Bool := decide ('1' ≤ c) && decide (c ≤ '9')

/-- Rust's `'0'..='9' | 'A'..='F' | 'a'..='f'` hexadecimal range
(src/parser/lexer.rs line 104). -/
def isHex (c : Char) : Bool :=
  isDigit c || (decide ('A' ≤ c) && decide (c ≤ 'F')) || (decide ('a' ≤ c) && decide (c ≤ 'f'))

/-- Value of one decimal digit character. -/
def digitVal (c : Char) : Nat := c.toNat - 48

/-- Value of a decimal digit string (most significant digit first). -/
def digitsVal (ds : List Char) : Nat := ds.foldl (fun a c => 10 * a + digitVal c) 0

/-- A decoded numeric literal: sign, the digits of the integer and
fractional parts read as one natural number, and the power of ten said
mantissa is scaled by. -/
structure NumParts where
  neg : Bool
  mant : Nat
  exp10 : Int
deriving DecidableEq, Repr

/-- Decoding of the literal text accumulated by the lexer, restricted to
the shapes the lexer actually produces: an optional leading minus (the
lexer drops `+`), decimal digits, an optional point with digits, and an
optional lowercase `e` (the lexer normalises `E` to `e`) with an optional
sign and digits. Any other shape yields `none`, mirroring a Rust
`ParseFloatError`. -/
def parseNumLit (cs : List Char) : Option NumParts :=
  let (neg, cs1) :=
    match cs with
    | '-' :: r => (true, r)
    | _ => (false, cs)
  let ip := cs1.span (fun c => isDigit c)
  if ip.1.isEmpty then none else
  let fp :=
    match ip.2 with
    | '.' :: r => ((r.span (fun c => isDigit c)).1, (r.span (fun c => isDigit c)).2)
    | _ => (([] : List Char), ip.2)
  match fp.2 with
  | [] => some ⟨neg, digitsVal (ip.1 ++ fp.1), -(fp.1.length : Int)⟩
  | 'e' :: r =>
    let (eneg, r1) :=
      match r with
      | '-' :: r2 => (true, r2)
      | '+' :: r2 => (false, r2)
      | _ => (false, r)
    let ed := r1.span (fun c => isDigit c)
    if ed.1.isEmpty then none else
    if !ed.2.isEmpty then none else
    some ⟨neg, digitsVal (ip.1 ++ fp.1),
      (if eneg then -(digitsVal ed.1 : Int) else (digitsVal ed.1 : Int)) - (fp.1.length : Int)⟩
  | _ => none

/-- Decimal values whose magnitude is at least `2^1024 - 2^970` round to
infinity under IEEE-754 round-to-nearest-even, which is what Rust's
`str::parse::<f64>` implements (the largest finite double is
`2^1024 - 2^971`; the midpoint above it already rounds up). -/
def f64OverflowBound : Nat := 2 ^ 1024 - 2 ^ 970

/-- Whether `mant * 10^exp10` reaches the `f64` overflow bound. -/
def overflows (mant : Nat) (e : Int) : Bool :=
  if 0 ≤ e then decide (f64OverflowBound ≤ mant * 10 ^ e.toNat)
  else decide (f64OverflowBound * 10 ^ (-e).toNat ≤ mant)

/-- Exact value of `(-1)^neg * mant * 10^exp10` as a fraction in lowest
terms. -/
def qValue (neg : Bool) (mant : Nat) (e : Int) : Q :=
  let sign : Int := if neg then -1 else 1
  if 0 ≤ e then ⟨sign * ((mant * 10 ^ e.toNat : Nat) : Int), 1⟩
  else
    let d := 10 ^ (-e).toNat
    let g := Nat.gcd mant d
    ⟨sign * ((mant / g : Nat) : Int), d / g⟩

/-- The `f64` a decoded literal parses to: signed infinity on overflow
(saturation, not an error), otherwise the exact rational value. -/
def mkF64 (p : NumParts) : F64 :=
  if overflows p.mant p.exp10 then (if p.neg then F64.neginf else F64.inf)
  else F64.finite (qValue p.neg p.mant p.exp10)

/-- Mirror of `parse_string_number_to_float` (src/parser/lexer.rs
lines 55-59): `number_string.parse::<f64>()`, with a parse failure mapped
to `JSONError::new(format!("Unexpected error: {}", e), 1)` (a Rust
`ParseFloatError` displays as "invalid float literal"). -/
def parse_string_number_to_float (cs : List Char) : Except JSONError F64 :=
  match parseNumLit cs with
  | none => .error ⟨"Unexpected error: invalid float literal", 1⟩
  | some p => .ok (mkF64 p)

/-- Result of one character step of the lexer: either the error returned
from the big `match` in `lex`, or the tokens pushed by the arm together
with the updated `curr_string_literal`, `curr_number_string` and state. -/
inductive StepRes where
  | err (e : JSONError)
  | cont (emit : List Token) (lit : List Char) (num : List Char) (st : LexState)
deriving DecidableEq, Repr

/-- The number-closing pattern repeated in the terminator arms of `lex`
(src/parser/lexer.rs lines 126-133, 143-151, 157-164, 175-182, 185-191):
parse `curr_number_string` (propagating its error as the `?` operator
does), clear it, and push the numeric token followed by the terminator's
own tokens. -/
def closeNumber (num : List Char) (extra : List Token) (lit : List Char) : StepRes :=
  match parse_string_number_to_float num with
  | .error e => .err e
  | .ok v => .cont (Token.Number v :: extra) lit [] .Normal

/-- The `(_, State::ValueStringLiteral)` arms of the lexer's `match`
(src/parser/lexer.rs lines 77-89), in source order. -/
def stepString (c : Char) (lit num : List Char) : StepRes :=
  if c = '\\' then .cont [] lit num .Escaping
  else if c = '\t' then .err ⟨"Unexpected <tab>", 1⟩
  else if c = '"' then .cont [.StringLiteral lit] [] num .Normal
  else .cont [] (lit ++ [c]) num .ValueStringLiteral

/-- The `(_, State::Escaping)` arms (src/parser/lexer.rs lines 90-103). -/
def stepEscaping (c : Char) (lit num : List Char) : StepRes :=
  if c = '"' ∨ c = '\\' then .cont [] (lit ++ [c]) num .ValueStringLiteral
  else if c = 'b' ∨ c = 'f' ∨ c = 'n' ∨ c = 'r' ∨ c = 't' ∨ c = '/' then
    .cont [] (lit ++ ['\\', c]) num .ValueStringLiteral
  else if c = 'u' then .cont [] (lit ++ ['\\', 'u']) num (.Hex 0)
  else .err (unexpectedChar c)

/-- The `(_, State::Hex(hex_idx))` arm (src/parser/lexer.rs
lines 104-113). -/
def stepHex (c : Char) (lit num : List Char) (i : Nat) : StepRes :=
  if isHex c ∧ i < 4 then
    (if i = 3 then .cont [] (lit ++ [c]) num .ValueStringLiteral
     else .cont [] (lit ++ [c]) num (.Hex (i + 1)))
  else .err (unexpectedChar c)

/-- The `(_, State::Normal)` arms (src/parser/lexer.rs lines 115-267), in
source order. -/
def stepNormal (c : Char) (lit num : List Char) : StepRes :=
  if c = '"' then .cont [] lit num .ValueStringLiteral
  else if c = '{' then .cont [.OpenBrace] lit num .Normal
  else if c = '}' then .cont [.ClosedBrace] lit num .Normal
  else if c = '[' then .cont [.OpenBracket] lit num .Normal
  else if c = ']' then .cont [.ClosedBracket] lit num .Normal
  else if c = '\n' then .cont [.NewLine] lit num .Normal
  else if c = ':' then .cont [.Column] lit num .Normal
  else if c = ',' then .cont [.Comma] lit num .Normal
  else if c = ' ' then .cont [] lit num .Normal
  else if c = '-' ∨ c = '+' then
    .cont [] lit (num ++ (if c = '-' then [c] else [])) (.ValueNumber .Sign)
  else if c = '0' then .cont [] lit (num ++ ['0']) (.ValueNumber .LeadingZero)
  else if isDigit19 c then .cont [] lit (num ++ [c]) (.ValueNumber .Integer)
  else if c = 't' then .cont [] lit num (.ValueTrue 't')
  else if c = 'f' then .cont [] lit num (.ValueFalse 'f')
  else if c = 'n' then .cont [] lit num (.ValueNull 'n')
  else .err (unexpectedChar c)

/-- The `(_, State::ValueNumber(n))` arms (src/parser/lexer.rs
lines 126-242), in source order: terminators close a final number,
signs/digits/point/exponent drive the number-grammar transitions, anything
else is a lexical error. -/
def stepNumber (c : Char) (lit num : List Char) (n : NumberState) : StepRes :=
  if c = '}' then
    (if n.is_final then closeNumber num [.ClosedBrace] lit else .err (unexpectedChar c))
  else if c = ']' then
    (if n.is_final then closeNumber num [.ClosedBracket] lit else .err (unexpectedChar c))
  else if c = '\n' then
    (if n.is_final then closeNumber num [.NewLine] lit else .err (unexpectedChar c))
  else if c = ',' then
    (if n.is_final then closeNumber num [.Comma] lit else .err (unexpectedChar c))
  else if c = ' ' then
    (if n.is_final then closeNumber num [] lit else .err (unexpectedChar c))
  else if c = '-' ∨ c = '+' then
    (if n = .Exp then
      .cont [] lit (num ++ (if c = '-' then [c] else [])) (.ValueNumber .ExpSign)
     else .err (unexpectedChar c))
  else if c = 'e' ∨ c = 'E' then
    (if n.is_final && !n.is_exp then .cont [] lit (num ++ ['e']) (.ValueNumber .Exp)
     else .err (unexpectedChar c))
  else if c = '0' then
    (if n = .Exp ∨ n = .ExpSign then .cont [] lit (num ++ ['0']) (.ValueNumber .ExpLeadingZero)
     else if n = .Sign then .cont [] lit (num ++ ['0']) (.ValueNumber .LeadingZero)
     else if n = .Point then .cont [] lit (num ++ ['0']) (.ValueNumber .Decimal)
     else if !n.is_leading_zero then .cont [] lit (num ++ ['0']) (.ValueNumber n)
     else .err (unexpectedChar c))
  else if isDigit19 c then
    (if n = .Exp ∨ n = .ExpSign then .cont [] lit (num ++ [c]) (.ValueNumber .ExpInteger)
     else if n = .Sign then .cont [] lit (num ++ [c]) (.ValueNumber .Integer)
     else if n = .Point then .cont [] lit (num ++ [c]) (.ValueNumber .Decimal)
     else if !n.is_leading_zero then .cont [] lit (num ++ [c]) (.ValueNumber n)
     else .err (unexpectedChar c))
  else if c = '.' then
    (if n = .Integer ∨ n = .LeadingZero then .cont [] lit (num ++ ['.']) (.ValueNumber .Point)
     else .err (unexpectedChar c))
  else .err (unexpectedChar c)

/-- The `(_, State::ValueTrue(..))` arms (src/parser/lexer.rs
lines 244-250). -/
def stepTrue (c : Char) (lit num : List Char) (p : Char) : StepRes :=
  if p = 't' ∧ c = 'r' then .cont [] lit num (.ValueTrue 'r')
  else if p = 'r' ∧ c = 'u' then .cont [] lit num (.ValueTrue 'u')
  else if p = 'u' ∧ c = 'e' then .cont [.BoolTrue] lit num .Normal
  else .err (unexpectedChar c)

/-- The `(_, State::ValueFalse(..))` arms (src/parser/lexer.rs
lines 252-259). -/
def stepFalse (c : Char) (lit num : List Char) (p : Char) : StepRes :=
  if p = 'f' ∧ c = 'a' then .cont [] lit num (.ValueFalse 'a')
  else if p = 'a' ∧ c = 'l' then .cont [] lit num (.ValueFalse 'l')
  else if p = 'l' ∧ c = 's' then .cont [] lit num (.ValueFalse 's')
  else if p = 's' ∧ c = 'e' then .cont [.BoolFalse] lit num .Normal
  else .err (unexpectedChar c)

/-- The `(_, State::ValueNull(..))` arms (src/parser/lexer.rs
lines 261-267). -/
def stepNull (c : Char) (lit num : List Char) (p : Char) : StepRes :=
  if p = 'n' ∧ c = 'u' then .cont [] lit num (.ValueNull 'u')
  else if p = 'u' ∧ c = 'l' then .cont [] lit num (.ValueNull 'l')
  else if p = 'l' ∧ c = 'l' then .cont [.Null] lit num .Normal
  else .err (unexpectedChar c)

/-- One iteration of `for c in s.chars()` in `lex` (src/parser/lexer.rs
lines 75-271). The source matches on `(c, &state)` pairs; here the arms
are grouped by state, preserving the source's arm order within each state
(the arms of distinct states cannot overlap). -/
def lexStep (c : Char) (lit num : List Char) (st : LexState) : StepRes :=
  match st with
  | .ValueStringLiteral => stepString c lit num
  | .Escaping => stepEscaping c lit num
  | .Hex i => stepHex c lit num i
  | .Normal => stepNormal c lit num
  | .ValueNumber n => stepNumber c lit num n
  | .ValueTrue p => stepTrue c lit num p
  | .ValueFalse p => stepFalse c lit num p
  | .ValueNull p => stepNull c lit num p

/-- Processing of the characters of one chunk (one `Ok(_)` iteration of
`lex`), returning the tokens this chunk appends. When the characters run
out the accumulated `curr_string_literal` / `curr_number_string` and the
state are dropped (the source declares them inside the loop iteration and
never flushes them), so a pending token at end of chunk is discarded. -/
def lexChunk : List Char → List Char → List Char → LexState → Except JSONError (List Token)
  | [], _, _, _ => .ok []
  | c :: cs, lit, num, st =>
    match lexStep c lit num st with
    | .err e => .error e
    | .cont emit lit2 num2 st2 =>
      match lexChunk cs lit2 num2 st2 with
      | .error e => .error e
      | .ok ts => .ok (emit ++ ts)

/-- Chunking performed by `reader.read_until(b'\n', &mut buf)`
(src/parser/lexer.rs line 66): each chunk runs up to and including a
newline; a final chunk without a newline ends at end of input. The byte
`b'\n'` cannot occur inside a multi-byte UTF-8 sequence, so splitting the
character list at `'\n'` is faithful. -/
def toChunks : List Char → List (List Char)
  | [] => []
  | c :: rest =>
    if c = '\n' then ['\n'] :: toChunks rest
    else
      match toChunks rest with
      | [] => [[c]]
      | ch :: chs => (c :: ch) :: chs

/-- The chunk loop of `lex`: each chunk is processed with a fresh state
(`State::Normal`, empty literal and number buffers are re-created at every
iteration of the `loop`), and the produced tokens are concatenated. -/
def lexAll : List (List Char) → Except JSONError (List Token)
  | [] => .ok []
  | ch :: chs =>
    match lexChunk ch [] [] .Normal with
    | .error e => .error e
    | .ok a =>
      match lexAll chs with
      | .error e => .error e
      | .ok b => .ok (a ++ b)

/-- Mirror of `pub fn lex<R: BufRead>` (src/parser/lexer.rs lines 61-282)
on a fully materialised input. -/
def lex (input : List Char) : Except JSONError (List Token) :=
  lexAll (toChunks input)

/-- Mirror of `enum ObjArr` in src/parser/parser.rs lines 56-62. -/
inductive ObjArr where
  | RootArr
  | RootObj
  | Object
  | Array
deriving DecidableEq, Repr

/-- Mirror of `enum StateKind` in src/parser/parser.rs lines 64-80. -/
inductive StateKind where
  | Initial
  | OpenObj
  | OpenArr
  | ObjKey
  | ObjVal
  | AfterObjVal
  | ObjComma
  | ArrVal
  | ArrValAfterComma
  | End
deriving DecidableEq, Repr

/-- Mirror of `struct State` in src/parser/parser.rs lines 3-7: the current
state kind plus the container stack (list head = stack top). -/
structure PState where
  state_kind : StateKind
  obj_arr_stack : List ObjArr
deriving DecidableEq, Repr

/-- Mirror of `State::close_obj` (src/parser/parser.rs lines 17-24):
popping anything other than an object marker, or popping an empty stack,
is the structural error `"Unexpected '}'"`. -/
def close_obj (s : PState) : Except JSONError PState :=
  match s.obj_arr_stack with
  | ObjArr.RootObj :: rest => .ok ⟨.End, rest⟩
  | ObjArr.Object :: rest => .ok ⟨.AfterObjVal, rest⟩
  | _ => .error ⟨"Unexpected " ++ quoted "\x7d", 1⟩

/-- Mirror of `State::close_arr` (src/parser/parser.rs lines 46-53). -/
def close_arr (s : PState) : Except JSONError PState :=
  match s.obj_arr_stack with
  | ObjArr.RootArr :: rest => .ok ⟨.End, rest⟩
  | ObjArr.Array :: rest => .ok ⟨.ArrVal, rest⟩
  | _ => .error ⟨"Unexpected " ++ quoted "]", 1⟩

/-- Mirror of `State::open_obj` (src/parser/parser.rs lines 26-34). -/
def open_obj (s : PState) : PState :=
  ⟨.OpenObj, (if s.obj_arr_stack.isEmpty then ObjArr.RootObj else ObjArr.Object) :: s.obj_arr_stack⟩

/-- Mirror of `State::open_arr` (src/parser/parser.rs lines 36-44). -/
def open_arr (s : PState) : PState :=
  ⟨.OpenArr, (if s.obj_arr_stack.isEmpty then ObjArr.RootArr else ObjArr.Array) :: s.obj_arr_stack⟩

/-- One iteration of the token loop of `parse` (src/parser/parser.rs
lines 84-171), arm for arm in source order (the `dbg!` calls are output
only). -/
def parseStep (s : PState) (t : Token) : Except JSONError PState :=
  match s.state_kind, t with
  | _, .NewLine => .ok s
  | .Initial, .OpenBrace => .ok (open_obj s)
  | .Initial, .ClosedBrace => .error ⟨"Unexpected " ++ quoted "\x7d", 1⟩
  | .Initial, .OpenBracket => .ok (open_arr s)
  | .End, tk => .error (unexpectedToken tk)
  | .OpenObj, .StringLiteral _ => .ok ⟨.ObjKey, s.obj_arr_stack⟩
  | .OpenObj, .ClosedBrace => close_obj s
  | .OpenArr, .ClosedBracket => close_arr s
  | .OpenArr, .OpenBracket => .ok (open_arr s)
  | .OpenArr, .StringLiteral _ => .ok ⟨.ArrVal, s.obj_arr_stack⟩
  | .OpenArr, .BoolFalse => .ok ⟨.ArrVal, s.obj_arr_stack⟩
  | .OpenArr, .BoolTrue => .ok ⟨.ArrVal, s.obj_arr_stack⟩
  | .OpenArr, .Null => .ok ⟨.ArrVal, s.obj_arr_stack⟩
  | .OpenArr, .Number _ => .ok ⟨.ArrVal, s.obj_arr_stack⟩
  | .ArrValAfterComma, .StringLiteral _ => .ok ⟨.ArrVal, s.obj_arr_stack⟩
  | .ArrValAfterComma, .BoolFalse => .ok ⟨.ArrVal, s.obj_arr_stack⟩
  | .ArrValAfterComma, .BoolTrue => .ok ⟨.ArrVal, s.obj_arr_stack⟩
  | .ArrValAfterComma, .Null => .ok ⟨.ArrVal, s.obj_arr_stack⟩
  | .ArrValAfterComma, .Number _ => .ok ⟨.ArrVal, s.obj_arr_stack⟩
  | .ObjKey, .Column => .ok ⟨.ObjVal, s.obj_arr_stack⟩
  | .ArrVal, .ClosedBracket => close_arr s
  | .ArrVal, .ClosedBrace => close_obj s
  | .ArrVal, .Comma => .ok ⟨.ArrValAfterComma, s.obj_arr_stack⟩
  | .ObjVal, .StringLiteral _ => .ok ⟨.AfterObjVal, s.obj_arr_stack⟩
  | .ObjVal, .BoolFalse => .ok ⟨.AfterObjVal, s.obj_arr_stack⟩
  | .ObjVal, .BoolTrue => .ok ⟨.AfterObjVal, s.obj_arr_stack⟩
  | .ObjVal, .Null => .ok ⟨.AfterObjVal, s.obj_arr_stack⟩
  | .ObjVal, .Number _ => .ok ⟨.AfterObjVal, s.obj_arr_stack⟩
  | .ObjVal, .OpenBrace => .ok (open_obj s)
  | .ObjVal, .OpenBracket => .ok (open_arr s)
  | .AfterObjVal, .ClosedBrace => close_obj s
  | .AfterObjVal, .Comma => .ok ⟨.ObjComma, s.obj_arr_stack⟩
  | .ObjComma, .StringLiteral _ => .ok ⟨.ObjKey, s.obj_arr_stack⟩
  | _, tk => .error (unexpectedToken tk)

/-- The token loop of `parse`, folding `parseStep` and stopping at the
first error. -/
def parseRun : List Token → PState → Except JSONError PState
  | [], s => .ok s
  | t :: ts, s =>
    match parseStep s t with
    | .error e => .error e
    | .ok s2 => parseRun ts s2

/-- Mirror of `pub fn parse` (src/parser/parser.rs lines 82-177): run the
loop from `State::new()`; reaching the end of the tokens in any state
other than `End` is `"Unexpected EOF"` at line 1. -/
def parse (tokens : List Token) : Except JSONError Unit :=
  match parseRun tokens ⟨.Initial, []⟩ with
  | .error e => .error e
  | .ok s => if s.state_kind = StateKind.End then .ok () else .error ⟨"Unexpected EOF", 1⟩

/-- The `current_line` field of `JSONParser`: `check_valid` sets it to 1
before its loop and never updates it (the `Token::NewLine` arm is an
"ignore for now"), so `build_json_err` always attaches line 1. -/
def current_line : Int := 1

/-- The mutable locals of `JSONParser::check_valid` (src/parser/mod.rs
lines 47-51). `is_inside_array` is declared but never used by the source;
`is_inside_literal` is toggled by the never-emitted `DoubleQuotes` token
and never read. Both are kept for fidelity. -/
structure CvState where
  obj_depth : Int
  is_inside_array : Bool
  is_json_ended : Bool
  is_inside_literal : Bool
  is_after_comma : Bool
deriving DecidableEq, Repr

/-- One iteration of the token loop of `check_valid` (src/parser/mod.rs
lines 52-90). Note that only `OpenBrace` and `DoubleQuotes` reset
`is_after_comma`. -/
def cvStep (s : CvState) (t : Token) : Except JSONError CvState :=
  match t with
  | .OpenBrace => .ok { s with is_after_comma := false, obj_depth := s.obj_depth + 1 }
  | .ClosedBrace =>
    if s.obj_depth = 0 then .error ⟨"Unexpected " ++ tokenStr Token.ClosedBrace, current_line⟩
    else if s.is_after_comma then
      .error ⟨"Unexpected " ++ tokenStr Token.ClosedBrace, current_line⟩
    else
      .ok { s with
              obj_depth := s.obj_depth - 1,
              is_json_ended := if s.obj_depth - 1 = 0 then true else s.is_json_ended }
  | .NewLine => .ok s
  | .DoubleQuotes => .ok { s with is_after_comma := false, is_inside_literal := !s.is_inside_literal }
  | .Column => .ok s
  | .Comma => .ok { s with is_after_comma := true }
  | .StringLiteral _ => .ok s
  | .Number _ => .ok s
  | .BoolTrue => .ok s
  | .BoolFalse => .ok s
  | .Null => .ok s
  | .OpenBracket => .ok s
  | .ClosedBracket => .ok s

/-- The token loop of `check_valid`, folding `cvStep`. -/
def cvRun : List Token → CvState → Except JSONError CvState
  | [], s => .ok s
  | t :: ts, s =>
    match cvStep s t with
    | .error e => .error e
    | .ok s2 => cvRun ts s2

/-- Mirror of `JSONParser::check_valid` (src/parser/mod.rs lines 42-95):
lex the whole input, then run the brace-depth/comma-flag loop; if
`is_json_ended` never became true the result is `"Unexpected EOF"`. The
structural validator `parse` of src/parser/parser.rs is never invoked. -/
def check_valid (input : List Char) : Except JSONError Unit :=
  match lex input with
  | .error e => .error e
  | .ok toks =>
    match cvRun toks ⟨0, false, false, false, false⟩ with
    | .error e => .error e
    | .ok s => if s.is_json_ended then .ok () else .error ⟨"Unexpected EOF", current_line⟩

/-- Concatenation of `n` copies of a list (builds inputs such as `n`
concatenated copies of a two-character document). -/
def repeatList {α : Type} : Nat → List α → List α
  | 0, _ => []
  | n + 1, l => l ++ repeatList n l

end RustJson

deriving instance DecidableEq for Except

namespace RustJson

/-! Helper lemmas: every diagnostic constructed anywhere in the pipeline
carries the line number 1, mirroring the hardcoded `1` at every
`JSONError::new` call site of the source. -/

theorem ite_err_line (P : Prop) [Decidable P] (a b : StepRes) (e : JSONError)
    (ha : a = .err e → e.line = 1) (hb : b = .err e → e.line = 1)
    (h : (if P then a else b) = .err e) : e.line = 1 := by
  by_cases hp : P
  · exact ha (by rwa [if_pos hp] at h)
  · exact hb (by rwa [if_neg hp] at h)

theorem err_line_of_eq (m : String) (e : JSONError) (h : StepRes.err ⟨m, 1⟩ = .err e) :
    e.line = 1 := by
  injection h with h1
  subst h1
  rfl

theorem parse_float_err_line (num : List Char) (e : JSONError)
    (h : parse_string_number_to_float num = .error e) : e.line = 1 := by
  unfold parse_string_number_to_float at h
  cases hp : parseNumLit num with
  | none => rw [hp] at h; injection h with h1; subst h1; rfl
  | some p => rw [hp] at h; exact Except.noConfusion h

theorem closeNumber_err_line (num : List Char) (extra : List Token) (lit : List Char)
    (e : JSONError) (h : closeNumber num extra lit = .err e) : e.line = 1 := by
  unfold closeNumber at h
  cases hp : parse_string_number_to_float num with
  | error e1 => rw [hp] at h; injection h with h1; subst h1; exact parse_float_err_line _ _ hp
  | ok v => rw [hp] at h; exact StepRes.noConfusion h

theorem stepString_err_line (c : Char) (lit num : List Char) (e : JSONError)
    (h : stepString c lit num = .err e) : e.line = 1 := by
  unfold stepString at h
  refine ite_err_line _ _ _ _ (fun h => StepRes.noConfusion h) (fun h => ?_) h
  refine ite_err_line _ _ _ _ (fun h => err_line_of_eq _ _ h) (fun h => ?_) h
  refine ite_err_line _ _ _ _ (fun h => StepRes.noConfusion h) (fun h => ?_) h
  exact StepRes.noConfusion h

theorem stepEscaping_err_line (c : Char) (lit num : List Char) (e : JSONError)
    (h : stepEscaping c lit num = .err e) : e.line = 1 := by
  unfold stepEscaping at h
  refine ite_err_line _ _ _ _ (fun h => StepRes.noConfusion h) (fun h => ?_) h
  refine ite_err_line _ _ _ _ (fun h => StepRes.noConfusion h) (fun h => ?_) h
  refine ite_err_line _ _ _ _ (fun h => StepRes.noConfusion h) (fun h => ?_) h
  exact err_line_of_eq _ _ h

theorem stepHex_err_line (c : Char) (lit num : List Char) (i : Nat) (e : JSONError)
    (h : stepHex c lit num i = .err e) : e.line = 1 := by
  unfold stepHex at h
  refine ite_err_line _ _ _ _ (fun h => ?_) (fun h => err_line_of_eq _ _ h) h
  exact ite_err_line _ _ _ _ (fun h => StepRes.noConfusion h) (fun h => StepRes.noConfusion h) h

theorem stepNormal_err_line (c : Char) (lit num : List Char) (e : JSONError)
    (h : stepNormal c lit num = .err e) : e.line = 1 := by
  unfold stepNormal at h
  refine ite_err_line _ _ _ _ (fun h => StepRes.noConfusion h) (fun h => ?_) h
  refine ite_err_line _ _ _ _ (fun h => StepRes.noConfusion h) (fun h => ?_) h
  refine ite_err_line _ _ _ _ (fun h => StepRes.noConfusion h) (fun h => ?_) h
  refine ite_err_line _ _ _ _ (fun h => StepRes.noConfusion h) (fun h => ?_) h
  refine ite_err_line _ _ _ _ (fun h => StepRes.noConfusion h) (fun h => ?_) h
  refine ite_err_line _ _ _ _ (fun h => StepRes.noConfusion h) (fun h => ?_) h
  refine ite_err_line _ _ _ _ (fun h => StepRes.noConfusion h) (fun h => ?_) h
  refine ite_err_line _ _ _ _ (fun h => StepRes.noConfusion h) (fun h => ?_) h
  refine ite_err_line _ _ _ _ (fun h => StepRes.noConfusion h) (fun h => ?_) h
  refine ite_err_line _ _ _ _ (fun h => StepRes.noConfusion h) (fun h => ?_) h
  refine ite_err_line _ _ _ _ (fun h => StepRes.noConfusion h) (fun h => ?_) h
  refine ite_err_line _ _ _ _ (fun h => StepRes.noConfusion h) (fun h => ?_) h
  refine ite_err_line _ _ _ _ (fun h => StepRes.noConfusion h) (fun h => ?_) h
  refine ite_err_line _ _ _ _ (fun h => StepRes.noConfusion h) (fun h => ?_) h
  refine ite_err_line _ _ _ _ (fun h => StepRes.noConfusion h) (fun h => ?_) h
  exact err_line_of_eq _ _ h

theorem stepNumber_err_line (c : Char) (lit num : List Char) (n : NumberState) (e : JSONError)
    (h : stepNumber c lit num n = .err e) : e.line = 1 := by
  unfold stepNumber at h
  refine ite_err_line _ _ _ _
    (fun h => ite_err_line _ _ _ _ (fun h => closeNumber_err_line _ _ _ _ h)
      (fun h => err_line_of_eq _ _ h) h) (fun h => ?_) h
  refine ite_err_line _ _ _ _
    (fun h => ite_err_line _ _ _ _ (fun h => closeNumber_err_line _ _ _ _ h)
      (fun h => err_line_of_eq _ _ h) h) (fun h => ?_) h
  refine ite_err_line _ _ _ _
    (fun h => ite_err_line _ _ _ _ (fun h => closeNumber_err_line _ _ _ _ h)
      (fun h => err_line_of_eq _ _ h) h) (fun h => ?_) h
  refine ite_err_line _ _ _ _
    (fun h => ite_err_line _ _ _ _ (fun h => closeNumber_err_line _ _ _ _ h)
      (fun h => err_line_of_eq _ _ h) h) (fun h => ?_) h
  refine ite_err_line _ _ _ _
    (fun h => ite_err_line _ _ _ _ (fun h => closeNumber_err_line _ _ _ _ h)
      (fun h => err_line_of_eq _ _ h) h) (fun h => ?_) h
  refine ite_err_line _ _ _ _
    (fun h => ite_err_line _ _ _ _ (fun h => StepRes.noConfusion h)
      (fun h => err_line_of_eq _ _ h) h) (fun h => ?_) h
  refine ite_err_line _ _ _ _
    (fun h => ite_err_line _ _ _ _ (fun h => StepRes.noConfusion h)
      (fun h => err_line_of_eq _ _ h) h) (fun h => ?_) h
  refine ite_err_line _ _ _ _
    (fun h => ite_err_line _ _ _ _ (fun h => StepRes.noConfusion h)
      (fun h => ite_err_line _ _ _ _ (fun h => StepRes.noConfusion h)
        (fun h => ite_err_line _ _ _ _ (fun h => StepRes.noConfusion h)
          (fun h => ite_err_line _ _ _ _ (fun h => StepRes.noConfusion h)
            (fun h => err_line_of_eq _ _ h) h) h) h) h) (fun h => ?_) h
  refine ite_err_line _ _ _ _
    (fun h => ite_err_line _ _ _ _ (fun h => StepRes.noConfusion h)
      (fun h => ite_err_line _ _ _ _ (fun h => StepRes.noConfusion h)
        (fun h => ite_err_line _ _ _ _ (fun h => StepRes.noConfusion h)
          (fun h => ite_err_line _ _ _ _ (fun h => StepRes.noConfusion h)
            (fun h => err_line_of_eq _ _ h) h) h) h) h) (fun h => ?_) h
  refine ite_err_line _ _ _ _
    (fun h => ite_err_line _ _ _ _ (fun h => StepRes.noConfusion h)
      (fun h => err_line_of_eq _ _ h) h) (fun h => ?_) h
  exact err_line_of_eq _ _ h

theorem stepTrue_err_line (c : Char) (lit num : List Char) (p : Char) (e : JSONError)
    (h : stepTrue c lit num p = .err e) : e.line = 1 := by
  unfold stepTrue at h
  refine ite_err_line _ _ _ _ (fun h => StepRes.noConfusion h) (fun h => ?_) h
  refine ite_err_line _ _ _ _ (fun h => StepRes.noConfusion h) (fun h => ?_) h
  refine ite_err_line _ _ _ _ (fun h => StepRes.noConfusion h) (fun h => ?_) h
  exact err_line_of_eq _ _ h

theorem stepFalse_err_line (c : Char) (lit num : List Char) (p : Char) (e : JSONError)
    (h : stepFalse c lit num p = .err e) : e.line = 1 := by
  unfold stepFalse at h
  refine ite_err_line _ _ _ _ (fun h => StepRes.noConfusion h) (fun h => ?_) h
  refine ite_err_line _ _ _ _ (fun h => StepRes.noConfusion h) (fun h => ?_) h
  refine ite_err_line _ _ _ _ (fun h => StepRes.noConfusion h) (fun h => ?_) h
  refine ite_err_line _ _ _ _ (fun h => StepRes.noConfusion h) (fun h => ?_) h
  exact err_line_of_eq _ _ h

theorem stepNull_err_line (c : Char) (lit num : List Char) (p : Char) (e : JSONError)
    (h : stepNull c lit num p = .err e) : e.line = 1 := by
  unfold stepNull at h
  refine ite_err_line _ _ _ _ (fun h => StepRes.noConfusion h) (fun h => ?_) h
  refine ite_err_line _ _ _ _ (fun h => StepRes.noConfusion h) (fun h => ?_) h
  refine ite_err_line _ _ _ _ (fun h => StepRes.noConfusion h) (fun h => ?_) h
  exact err_line_of_eq _ _ h

theorem lexStep_err_line (c : Char) (lit num : List Char) (st : LexState) (e : JSONError)
    (h : lexStep c lit num st = .err e) : e.line = 1 := by
  cases st with
  | Normal => exact stepNormal_err_line _ _ _ _ h
  | ValueNumber n => exact stepNumber_err_line _ _ _ _ _ h
  | ValueTrue p => exact stepTrue_err_line _ _ _ _ _ h
  | ValueFalse p => exact stepFalse_err_line _ _ _ _ _ h
  | ValueNull p => exact stepNull_err_line _ _ _ _ _ h
  | ValueStringLiteral => exact stepString_err_line _ _ _ _ h
  | Escaping => exact stepEscaping_err_line _ _ _ _ h
  | Hex i => exact stepHex_err_line _ _ _ _ _ h

theorem lexChunk_err_line (cs : List Char) : ∀ (lit num : List Char) (st : LexState)
    (e : JSONError), lexChunk cs lit num st = .error e → e.line = 1 := by
  induction cs with
  | nil => intro lit num st e h; exact Except.noConfusion h
  | cons c cs ih =>
    intro lit num st e h
    unfold lexChunk at h
    cases hs : lexStep c lit num st with
    | err e1 =>
      rw [hs] at h
      simp only [] at h
      injection h with h1
      rw [← h1]
      exact lexStep_err_line _ _ _ _ _ hs
    | cont emit lit2 num2 st2 =>
      rw [hs] at h
      simp only [] at h
      cases hr : lexChunk cs lit2 num2 st2 with
      | error e1 =>
        rw [hr] at h
        simp only [] at h
        injection h with h1
        rw [← h1]
        exact ih _ _ _ _ hr
      | ok ts =>
        rw [hr] at h
        simp only [] at h
        exact Except.noConfusion h

theorem lexAll_err_line (chs : List (List Char)) : ∀ (e : JSONError),
    lexAll chs = .error e → e.line = 1 := by
  induction chs with
  | nil => intro e h; exact Except.noConfusion h
  | cons ch chs ih =>
    intro e h
    unfold lexAll at h
    cases hc : lexChunk ch [] [] .Normal with
    | error e1 =>
      rw [hc] at h
      simp only [] at h
      injection h with h1
      rw [← h1]
      exact lexChunk_err_line _ _ _ _ _ hc
    | ok a =>
      rw [hc] at h
      simp only [] at h
      cases hr : lexAll chs with
      | error e1 =>
        rw [hr] at h
        simp only [] at h
        injection h with h1
        rw [← h1]
        exact ih _ hr
      | ok b =>
        rw [hr] at h
        simp only [] at h
        exact Except.noConfusion h

theorem lex_err_line (input : List Char) (e : JSONError) (h : lex input = .error e) :
    e.line = 1 :=
  lexAll_err_line _ _ h

theorem close_obj_err_line (s : PState) (e : JSONError) (h : close_obj s = .error e) :
    e.line = 1 := by
  unfold close_obj at h
  cases hs : s.obj_arr_stack with
  | nil => rw [hs] at h; injection h with h1; rw [← h1]
  | cons a rest =>
    rw [hs] at h
    cases a <;> simp only [] at h <;> first
      | exact Except.noConfusion h
      | (injection h with h1; rw [← h1])

theorem close_arr_err_line (s : PState) (e : JSONError) (h : close_arr s = .error e) :
    e.line = 1 := by
  unfold close_arr at h
  cases hs : s.obj_arr_stack with
  | nil => rw [hs] at h; injection h with h1; rw [← h1]
  | cons a rest =>
    rw [hs] at h
    cases a <;> simp only [] at h <;> first
      | exact Except.noConfusion h
      | (injection h with h1; rw [← h1])

theorem parseStep_err_line (s : PState) (t : Token) (e : JSONError)
    (h : parseStep s t = .error e) : e.line = 1 := by
  obtain ⟨k, st⟩ := s
  cases k <;> cases t <;>
    first
    | exact Except.noConfusion h
    | (injection h with h1; subst h1; rfl)
    | exact close_obj_err_line _ _ h
    | exact close_arr_err_line _ _ h

theorem parseRun_err_line (ts : List Token) : ∀ (s : PState) (e : JSONError),
    parseRun ts s = .error e → e.line = 1 := by
  induction ts with
  | nil => intro s e h; exact Except.noConfusion h
  | cons t ts ih =>
    intro s e h
    unfold parseRun at h
    cases hs : parseStep s t with
    | error e1 =>
      rw [hs] at h
      simp only [] at h
      injection h with h1
      rw [← h1]
      exact parseStep_err_line _ _ _ hs
    | ok s2 =>
      rw [hs] at h
      simp only [] at h
      exact ih _ _ h

theorem parse_err_line (ts : List Token) (e : JSONError) (h : parse ts = .error e) :
    e.line = 1 := by
  unfold parse at h
  cases hr : parseRun ts ⟨.Initial, []⟩ with
  | error e1 =>
    rw [hr] at h
    simp only [] at h
    injection h with h1
    rw [← h1]
    exact parseRun_err_line _ _ _ hr
  | ok s =>
    rw [hr] at h
    simp only [] at h
    by_cases hk : s.state_kind = StateKind.End
    · rw [if_pos hk] at h; exact Except.noConfusion h
    · rw [if_neg hk] at h; injection h with h1; rw [← h1]

theorem cvStep_err_line (s : CvState) (t : Token) (e : JSONError)
    (h : cvStep s t = .error e) : e.line = 1 := by
  cases t <;> simp only [cvStep] at h <;>
    first
    | exact Except.noConfusion h
    | (revert h
       by_cases h0 : s.obj_depth = 0
       · rw [if_pos h0]
         intro h
         injection h with h1
         rw [← h1]
         rfl
       · rw [if_neg h0]
         by_cases hc : s.is_after_comma = true
         · rw [if_pos hc]
           intro h
           injection h with h1
           rw [← h1]
           rfl
         · rw [if_neg hc]
           intro h
           exact Except.noConfusion h)

theorem cvRun_err_line (ts : List Token) : ∀ (s : CvState) (e : JSONError),
    cvRun ts s = .error e → e.line = 1 := by
  induction ts with
  | nil => intro s e h; exact Except.noConfusion h
  | cons t ts ih =>
    intro s e h
    unfold cvRun at h
    cases hs : cvStep s t with
    | error e1 =>
      rw [hs] at h
      simp only [] at h
      injection h with h1
      rw [← h1]
      exact cvStep_err_line _ _ _ hs
    | ok s2 =>
      rw [hs] at h
      simp only [] at h
      exact ih _ _ h

theorem check_valid_err_line (input : List Char) (e : JSONError)
    (h : check_valid input = .error e) : e.line = 1 := by
  unfold check_valid at h
  cases hl : lex input with
  | error e1 =>
    rw [hl] at h
    simp only [] at h
    injection h with h1
    rw [← h1]
    exact lex_err_line _ _ hl
  | ok toks =>
    rw [hl] at h
    simp only [] at h
    cases hr : cvRun toks ⟨0, false, false, false, false⟩ with
    | error e1 =>
      rw [hr] at h
      simp only [] at h
      injection h with h1
      rw [← h1]
      exact cvRun_err_line _ _ _ hr
    | ok s =>
      rw [hr] at h
      simp only [] at h
      by_cases he : s.is_json_ended = true
      · rw [if_pos he] at h; exact Except.noConfusion h
      · rw [if_neg he] at h; injection h with h1; rw [← h1]; rfl

/-! Helper lemmas about the chunking performed by `read_until`. -/

theorem toChunks_single : ∀ (l : List Char), l ≠ [] → '\n' ∉ l → toChunks l = [l] := by
  intro l
  induction l with
  | nil => intro h _; exact absurd rfl h
  | cons c rest ih =>
    intro _ hnl
    have hc : c ≠ '\n' := by
      intro h
      exact hnl (by rw [h]; exact List.mem_cons_self _ _)
    have hnl2 : '\n' ∉ rest := fun hm => hnl (List.mem_cons_of_mem _ hm)
    unfold toChunks
    rw [if_neg hc]
    cases hr : rest with
    | nil => subst hr; rfl
    | cons d rest2 =>
      have h2 : toChunks rest = [rest] := ih (by rw [hr]; exact List.cons_ne_nil _ _) hnl2
      rw [hr] at h2
      rw [h2]

theorem toChunks_append_nl : ∀ (l1 l2 : List Char), '\n' ∉ l1 →
    toChunks (l1 ++ '\n' :: l2) = (l1 ++ ['\n']) :: toChunks l2 := by
  intro l1
  induction l1 with
  | nil =>
    intro l2 _
    show toChunks ('\n' :: l2) = ['\n'] :: toChunks l2
    rw [toChunks]
    rw [if_pos rfl]
  | cons c l1 ih =>
    intro l2 hnl
    have hc : c ≠ '\n' := by
      intro h
      exact hnl (by rw [h]; exact List.mem_cons_self _ _)
    have hnl2 : '\n' ∉ l1 := fun hm => hnl (List.mem_cons_of_mem _ hm)
    show toChunks (c :: (l1 ++ '\n' :: l2)) = ((c :: l1) ++ ['\n']) :: toChunks l2
    rw [toChunks]
    rw [if_neg hc, ih l2 hnl2]
    simp only []
    rw [List.cons_append]

/-! The claim theorems. -/

/-- Claim C1: the spec claims that every well-formed RFC 8259 document is
accepted by the public entry point `check_valid`. The code contradicts its
own unit test `should_recognize_string_with_spaces` (src/parser/mod.rs
lines 150-154), which asserts that this very input is accepted: the
after-comma flag is cleared only by `OpenBrace` (and by the never-emitted
`DoubleQuotes`), so the second string-valued member keeps the flag set and
the closing brace is rejected. The second conjunct shows that the
well-formed document `[]` is also rejected (only brace depth can set
`is_json_ended`). -/
theorem C1_check_valid_rejects_valid_documents :
    check_valid ("\x7b  \"key\":\"va l\",\n  \"ke y2\":\"val\"\x7d".toList) =
      .error ⟨"Unexpected " ++ quoted "\x7d", 1⟩ ∧
    check_valid ("[]".toList) = .error ⟨"Unexpected EOF", 1⟩ := by
  constructor
  · decide
  · decide

/-- Claim C2: on the input `["hello",]` the spec (and the parser's own
unit test `with_extra_comma_in_array`, src/parser/parser.rs lines 412-420)
expects the rendered diagnostic "Unexpected ']': at line 1", which is what
lexing and then running the structural validator `parse` produces; but
the public entry point `check_valid` never invokes `parse`, so it fails
with the unrelated "Unexpected EOF: at line 1" instead (nothing but a
closing brace can end its loop successfully). The conjuncts evaluate both
stages at the failing input and show the two rendered texts differ. -/
theorem C2_check_valid_never_runs_parse :
    check_valid ("[\"hello\",]".toList) = .error ⟨"Unexpected EOF", 1⟩ ∧
    (JSONError.mk "Unexpected EOF" 1).render ≠ "Unexpected " ++ quoted "]" ++ ": at line 1" ∧
    (lex ("[\"hello\",]".toList)).bind parse = .error ⟨"Unexpected " ++ quoted "]", 1⟩ ∧
    (JSONError.mk ("Unexpected " ++ quoted "]") 1).render =
      "Unexpected " ++ quoted "]" ++ ": at line 1" := by
  refine ⟨?_, ?_, ?_, ?_⟩
  · decide
  · decide
  · decide
  · decide

/-- Claim C3 counterexample: tokenizer state does not persist across chunk
boundaries. The input `["a<newline>b"]` contains a string literal spanning
a chunk boundary (chunks end after each newline): the real `lex` discards
the in-progress literal at the boundary and then fails on `b`, while
processing the same characters as one contiguous chunk succeeds with the
newline inside the string-literal token, so the two disagree. -/
theorem C3_token_spanning_chunk_boundary_differs :
    lex ("[\"a\nb\"]".toList) = .error (unexpectedChar 'b') ∧
    lexChunk ("[\"a\nb\"]".toList) [] [] .Normal =
      .ok [.OpenBracket, .StringLiteral ('a' :: '\n' :: 'b' :: []), .ClosedBracket] ∧
    (Except.error (unexpectedChar 'b') : Except JSONError (List Token)) ≠
      .ok [.OpenBracket, .StringLiteral ('a' :: '\n' :: 'b' :: []), .ClosedBracket] := by
  refine ⟨?_, ?_, ?_⟩
  · decide
  · decide
  · decide

/-- Claim C3 amended: `lex` reads chunks up to and including each newline
and restarts every chunk from the fresh `Normal` state with empty literal
and number buffers, so the input decomposes at every line break: lexing
`l1 ++ '\n' ++ l2` is lexing the line `l1 ++ '\n'` and then lexing `l2`
independently, concatenating the tokens. Grammar state therefore does not
persist across chunk boundaries. -/
theorem C3_state_reset_at_line_boundary (l1 l2 : List Char) (h : '\n' ∉ l1) :
    lex (l1 ++ '\n' :: l2) =
      (lex (l1 ++ ['\n'])).bind fun t1 => (lex l2).map fun t2 => t1 ++ t2 := by
  unfold lex
  rw [toChunks_append_nl l1 l2 h]
  have h2 : toChunks (l1 ++ ['\n']) = [l1 ++ ['\n']] := by
    have h3 := toChunks_append_nl l1 [] h
    rw [show toChunks ([] : List Char) = [] from rfl] at h3
    exact h3
  rw [h2]
  cases hc : lexChunk (l1 ++ ['\n']) [] [] .Normal with
  | error e => simp [lexAll, hc, Except.bind]
  | ok a =>
    cases hr : lexAll (toChunks l2) with
    | error e => simp [lexAll, hc, hr, Except.bind, Except.map]
    | ok b => simp [lexAll, hc, hr, Except.bind, Except.map]

/-- Claim C3 witness: the reset law applied at the concrete split
`[1,` / newline / `2]`. -/
theorem C3_state_reset_at_line_boundary_witness :
    lex ("[1,".toList ++ '\n' :: "2]".toList) =
      (lex ("[1,".toList ++ ['\n'])).bind fun t1 =>
        (lex ("2]".toList)).map fun t2 => t1 ++ t2 :=
  C3_state_reset_at_line_boundary _ _ (by decide)

/-- Claim C4 counterexample: input `0` (a lone zero, number sub-state
`LeadingZero`, which is final) lexes to an empty token sequence: the
pending number is discarded when the chunk loop ends, so no `Number`
token is emitted, contradicting the claimed `Number(0)`. -/
theorem C4_eof_drops_pending_number :
    lex ("0".toList) = .ok [] ∧
    (Except.ok ([] : List Token) : Except JSONError (List Token)) ≠
      .ok [Token.Number (F64.finite ⟨0, 1⟩)] := by
  constructor
  · decide
  · decide

/-- Claim C4 amended: end of input is not a number terminator: a pending
number in a final sub-state is silently dropped when the characters run
out, so `0` lexes to no tokens at all; the numeric token is emitted only
when an explicit terminator character follows, as with `0` before a
newline or a space. -/
theorem C4_number_closed_only_by_terminator :
    lex ("0".toList) = .ok [] ∧
    lex ("0\n".toList) = .ok [Token.Number (F64.finite ⟨0, 1⟩), Token.NewLine] ∧
    lex ("0 ".toList) = .ok [Token.Number (F64.finite ⟨0, 1⟩)] := by
  refine ⟨?_, ?_, ?_⟩
  · decide
  · decide
  · decide

/-- Claim C5 counterexample: a defect on line 2 is reported at line 1. In
the input `{`-newline-`x` the offending character `x` is preceded by one
line break, so the claim requires line 2, but the lexer (whose only error
line is the literal `1`, src/parser/lexer.rs line 269) reports line 1. -/
theorem C5_defect_on_line_two_reported_line_one :
    lex ("\x7b\nx".toList) = .error (JSONError.mk ("Unexpected " ++ quoted "x") 1) ∧
    (JSONError.mk ("Unexpected " ++ quoted "x") 1).line ≠ 2 := by
  constructor
  · decide
  · decide

/-- Claim C5 amended: every diagnostic renders as
"<message>: at line <line>", but the line is never computed from the
consumed line breaks: every error site of the lexer, of the structural
validator `parse` and of `check_valid` (whose `current_line` is set to 1
and never updated) supplies the constant 1, so every diagnostic of every
stage carries line 1 regardless of where the defect lies. -/
theorem C5_render_format_and_constant_line :
    (∀ (m : String) (l : Int), (JSONError.mk m l).render = m ++ ": at line " ++ toString l) ∧
    (∀ (input : List Char) (e : JSONError), lex input = .error e → e.line = 1) ∧
    (∀ (ts : List Token) (e : JSONError), parse ts = .error e → e.line = 1) ∧
    (∀ (input : List Char) (e : JSONError), check_valid input = .error e → e.line = 1) :=
  ⟨fun _ _ => rfl, lex_err_line, parse_err_line, check_valid_err_line⟩

/-- Claim C5 witness: the constant-line fact applied to the concrete
defective inputs `}` (structural, via `check_valid`) and `x` (lexical). -/
theorem C5_render_format_and_constant_line_witness :
    (JSONError.mk ("Unexpected " ++ quoted "\x7d") 1).line = 1 ∧
    (JSONError.mk ("Unexpected " ++ quoted "x") 1).line = 1 :=
  ⟨C5_render_format_and_constant_line.2.2.2 ("\x7d".toList) _ (by decide),
   C5_render_format_and_constant_line.2.1 ("x".toList) _ (by decide)⟩

/-- Claim C6 counterexample: the spec's scenario says `[1,2.6e1111]`
validates successfully, but the public entry point `check_valid` rejects
it with "Unexpected EOF" (an array-rooted document can never set
`is_json_ended`, which only brace depth drives). -/
theorem C6_check_valid_rejects_overflow_array :
    check_valid ("[1,2.6e1111]".toList) = .error ⟨"Unexpected EOF", 1⟩ ∧
    (Except.error (JSONError.mk "Unexpected EOF" 1) : Except JSONError Unit) ≠ .ok () := by
  constructor
  · decide
  · decide

/-- Claim C6 amended: tokenization of `[1,2.6e1111]` succeeds with no
error and its second numeric token is positive infinity (the literal's
magnitude exceeds the `f64` range, so the parsed value saturates to the
signed infinity matching the literal's sign, as the negative variant
shows); the overall validation verdict of `check_valid`, however, is
failure, since it rejects every array-rooted document. -/
theorem C6_overflow_saturates_to_infinity :
    lex ("[1,2.6e1111]".toList) =
      .ok [.OpenBracket, .Number (F64.finite ⟨1, 1⟩), .Comma, .Number F64.inf, .ClosedBracket] ∧
    lex ("[1,-2.6e1111]".toList) =
      .ok [.OpenBracket, .Number (F64.finite ⟨1, 1⟩), .Comma, .Number F64.neginf,
        .ClosedBracket] := by
  constructor
  · decide
  · decide

/-- Claim C7: in the number sub-state `LeadingZero` any character other
than `.`, an exponent marker (`e`/`E`), or a terminator (`}`, `]`, `,`,
newline, space) has no transition, so the lexer stops right there with
"Unexpected '<c>'" naming that character; in particular the inputs `011`,
`0true`, `0null` and `0[` all fail at the character following the zero. -/
theorem C7_leading_zero_rejects_continuation :
    (∀ (c : Char), c ≠ '.' → c ≠ 'e' → c ≠ 'E' → c ≠ '}' → c ≠ ']' → c ≠ ',' →
      c ≠ '\n' → c ≠ ' ' → ∀ (cs lit num : List Char),
      lexChunk (c :: cs) lit num (.ValueNumber .LeadingZero) = .error (unexpectedChar c)) ∧
    lex ("011".toList) = .error (unexpectedChar '1') ∧
    lex ("0true".toList) = .error (unexpectedChar 't') ∧
    lex ("0null".toList) = .error (unexpectedChar 'n') ∧
    lex ("0[".toList) = .error (unexpectedChar '[') := by
  refine ⟨?_, ?_, ?_, ?_, ?_⟩
  · intro c hdot he hE hbrace hbracket hcomma hnl hsp cs lit num
    have hstep : lexStep c lit num (.ValueNumber .LeadingZero) = .err (unexpectedChar c) := by
      show stepNumber c lit num .LeadingZero = .err (unexpectedChar c)
      unfold stepNumber
      rw [if_neg hbrace, if_neg hbracket, if_neg hnl, if_neg hcomma, if_neg hsp]
      rw [if_neg (show ¬(c = 'e' ∨ c = 'E') from fun h => h.elim he hE)]
      by_cases hpm : c = '-' ∨ c = '+'
      · rw [if_pos hpm, if_neg (by decide : ¬(NumberState.LeadingZero = NumberState.Exp))]
      rw [if_neg hpm]
      by_cases h0 : c = '0'
      · rw [if_pos h0, if_neg (by decide :
          ¬(NumberState.LeadingZero = NumberState.Exp ∨
            NumberState.LeadingZero = NumberState.ExpSign))]
        rw [if_neg (by decide : ¬(NumberState.LeadingZero = NumberState.Sign))]
        rw [if_neg (by decide : ¬(NumberState.LeadingZero = NumberState.Point))]
        rw [if_neg (by decide : ¬((!NumberState.is_leading_zero .LeadingZero) = true))]
      rw [if_neg h0]
      by_cases hd : isDigit19 c = true
      · rw [if_pos hd, if_neg (by decide :
          ¬(NumberState.LeadingZero = NumberState.Exp ∨
            NumberState.LeadingZero = NumberState.ExpSign))]
        rw [if_neg (by decide : ¬(NumberState.LeadingZero = NumberState.Sign))]
        rw [if_neg (by decide : ¬(NumberState.LeadingZero = NumberState.Point))]
        rw [if_neg (by decide : ¬((!NumberState.is_leading_zero .LeadingZero) = true))]
      rw [if_neg hd]
      rw [if_neg hdot]
    rw [lexChunk, hstep]
  · decide
  · decide
  · decide
  · decide

/-- Claim C7 witness: the general rejection applied at `c := '1'` (the
input `011` after its leading zero). -/
theorem C7_leading_zero_rejects_continuation_witness :
    lexChunk ('1' :: []) [] ('0' :: []) (.ValueNumber .LeadingZero) =
      .error (unexpectedChar '1') :=
  C7_leading_zero_rejects_continuation.1 '1' (by decide) (by decide) (by decide) (by decide)
    (by decide) (by decide) (by decide) (by decide) [] [] ('0' :: [])

/-- Claim C8: in the number sub-state `ExpLeadingZero` (an exponent whose
first digit is `0`) any further digit has no transition, so the lexer
fails with "Unexpected '<c>'" naming that second digit; concretely
`1.2E-00` fails with "Unexpected '0'", while a lone zero exponent as in
`0e0` is accepted and parses to the numeric value 0. -/
theorem C8_exp_leading_zero_rejects_digit :
    (∀ (c : Char), isDigit c = true → ∀ (cs lit num : List Char),
      lexChunk (c :: cs) lit num (.ValueNumber .ExpLeadingZero) = .error (unexpectedChar c)) ∧
    lex ("\x7b \"key\": 1.2E-00\x7d".toList) = .error (unexpectedChar '0') ∧
    lex ("\x7b \"key\": 0e0\x7d".toList) =
      .ok [.OpenBrace, .StringLiteral ("key".toList), .Column, .Number (F64.finite ⟨0, 1⟩),
        .ClosedBrace] := by
  refine ⟨?_, ?_, ?_⟩
  · intro c hd cs lit num
    have hbrace : c ≠ '}' := by intro h; subst h; exact absurd hd (by decide)
    have hbracket : c ≠ ']' := by intro h; subst h; exact absurd hd (by decide)
    have hnl : c ≠ '\n' := by intro h; subst h; exact absurd hd (by decide)
    have hcomma : c ≠ ',' := by intro h; subst h; exact absurd hd (by decide)
    have hsp : c ≠ ' ' := by intro h; subst h; exact absurd hd (by decide)
    have hpm : ¬(c = '-' ∨ c = '+') := by
      rintro (h | h) <;> subst h <;> exact absurd hd (by decide)
    have hee : ¬(c = 'e' ∨ c = 'E') := by
      rintro (h | h) <;> subst h <;> exact absurd hd (by decide)
    have hdot : c ≠ '.' := by intro h; subst h; exact absurd hd (by decide)
    have hstep : lexStep c lit num (.ValueNumber .ExpLeadingZero) = .err (unexpectedChar c) := by
      show stepNumber c lit num .ExpLeadingZero = .err (unexpectedChar c)
      unfold stepNumber
      rw [if_neg hbrace, if_neg hbracket, if_neg hnl, if_neg hcomma, if_neg hsp]
      rw [if_neg hee, if_neg hpm]
      by_cases h0 : c = '0'
      · rw [if_pos h0, if_neg (by decide :
          ¬(NumberState.ExpLeadingZero = NumberState.Exp ∨
            NumberState.ExpLeadingZero = NumberState.ExpSign))]
        rw [if_neg (by decide : ¬(NumberState.ExpLeadingZero = NumberState.Sign))]
        rw [if_neg (by decide : ¬(NumberState.ExpLeadingZero = NumberState.Point))]
        rw [if_neg (by decide : ¬((!NumberState.is_leading_zero .ExpLeadingZero) = true))]
      rw [if_neg h0]
      by_cases hd19 : isDigit19 c = true
      · rw [if_pos hd19, if_neg (by decide :
          ¬(NumberState.ExpLeadingZero = NumberState.Exp ∨
            NumberState.ExpLeadingZero = NumberState.ExpSign))]
        rw [if_neg (by decide : ¬(NumberState.ExpLeadingZero = NumberState.Sign))]
        rw [if_neg (by decide : ¬(NumberState.ExpLeadingZero = NumberState.Point))]
        rw [if_neg (by decide : ¬((!NumberState.is_leading_zero .ExpLeadingZero) = true))]
      rw [if_neg hd19]
      rw [if_neg hdot]
    rw [lexChunk, hstep]
  · decide
  · decide

/-- Claim C8 witness: the general rejection applied at `c := '0'` (the
second exponent digit of `1.2E-00`). -/
theorem C8_exp_leading_zero_rejects_digit_witness :
    lexChunk ('0' :: []) [] [] (.ValueNumber .ExpLeadingZero) = .error (unexpectedChar '0') :=
  C8_exp_leading_zero_rejects_digit.1 '0' (by decide) [] [] []

/-- Claim C9: in the structural validator, a closing token that does not
match the innermost open container is a structural error naming the
offending closer: whenever the stack's top is an array marker (or the
stack is empty), `}` yields "Unexpected '}'", and whenever the top is an
object marker (or the stack is empty), `]` yields "Unexpected ']'",
whatever the current state kind is. -/
theorem C9_mismatched_closer_is_error :
    (∀ (k : StateKind) (st : List ObjArr),
      st.head? = none ∨ st.head? = some ObjArr.RootArr ∨ st.head? = some ObjArr.Array →
      parseStep ⟨k, st⟩ Token.ClosedBrace = .error (unexpectedToken Token.ClosedBrace)) ∧
    (∀ (k : StateKind) (st : List ObjArr),
      st.head? = none ∨ st.head? = some ObjArr.RootObj ∨ st.head? = some ObjArr.Object →
      parseStep ⟨k, st⟩ Token.ClosedBracket = .error (unexpectedToken Token.ClosedBracket)) := by
  constructor
  · intro k st h
    cases st with
    | nil => cases k <;> rfl
    | cons a rest =>
      have ha : a = ObjArr.RootArr ∨ a = ObjArr.Array := by
        rcases h with h | h | h
        · exact absurd h (by simp)
        · left; simpa using h
        · right; simpa using h
      rcases ha with rfl | rfl <;> cases k <;> rfl
  · intro k st h
    cases st with
    | nil => cases k <;> rfl
    | cons a rest =>
      have ha : a = ObjArr.RootObj ∨ a = ObjArr.Object := by
        rcases h with h | h | h
        · exact absurd h (by simp)
        · left; simpa using h
        · right; simpa using h
      rcases ha with rfl | rfl <;> cases k <;> rfl

/-- Claim C9 witness: the mismatch law applied at concrete configurations:
a `}` while the innermost container is the root array, and a `]` right
after an object value of the root object. -/
theorem C9_mismatched_closer_is_error_witness :
    parseStep ⟨.ArrVal, [ObjArr.RootArr]⟩ Token.ClosedBrace =
      .error (unexpectedToken Token.ClosedBrace) ∧
    parseStep ⟨.AfterObjVal, [ObjArr.RootObj]⟩ Token.ClosedBracket =
      .error (unexpectedToken Token.ClosedBracket) :=
  ⟨C9_mismatched_closer_is_error.1 .ArrVal [ObjArr.RootArr] (Or.inr (Or.inl rfl)),
   C9_mismatched_closer_is_error.2 .AfterObjVal [ObjArr.RootObj] (Or.inr (Or.inl rfl))⟩

/-! Helper lemmas for claim C10. -/

theorem repeatList_braces_no_nl (n : Nat) : '\n' ∉ repeatList n ('{' :: '}' :: []) := by
  induction n with
  | zero => simp [repeatList]
  | succ m ih =>
    intro hm
    rw [repeatList] at hm
    rcases List.mem_append.mp hm with h | h
    · rcases List.mem_cons.mp h with h | h
      · exact absurd h (by decide)
      rcases List.mem_cons.mp h with h | h
      · exact absurd h (by decide)
      exact List.not_mem_nil _ h
    · exact ih h

theorem lexChunk_brace_pair (rest : List Char) :
    lexChunk ('{' :: '}' :: rest) [] [] .Normal =
      match lexChunk rest [] [] .Normal with
      | .error e => .error e
      | .ok ts => .ok (Token.OpenBrace :: Token.ClosedBrace :: ts) := by
  have s1 : lexStep '{' [] [] LexState.Normal =
      StepRes.cont [Token.OpenBrace] [] [] LexState.Normal := rfl
  have s2 : lexStep '}' [] [] LexState.Normal =
      StepRes.cont [Token.ClosedBrace] [] [] LexState.Normal := rfl
  rw [lexChunk, s1]
  simp only []
  rw [lexChunk, s2]
  simp only []
  cases hr : lexChunk rest [] [] LexState.Normal with
  | error e => rfl
  | ok ts => rfl

theorem lexChunk_braces (n : Nat) :
    lexChunk (repeatList n ('{' :: '}' :: [])) [] [] .Normal =
      .ok (repeatList n (Token.OpenBrace :: Token.ClosedBrace :: [])) := by
  induction n with
  | zero => rfl
  | succ m ih =>
    rw [repeatList]
    simp only [List.cons_append, List.nil_append]
    rw [lexChunk_brace_pair, ih]
    rw [repeatList]
    simp only []
    simp only [List.cons_append, List.nil_append]

theorem cvRun_braces_ended (n : Nat) :
    cvRun (repeatList n (Token.OpenBrace :: Token.ClosedBrace :: []))
        ⟨0, false, true, false, false⟩ =
      .ok ⟨0, false, true, false, false⟩ := by
  induction n with
  | zero => rfl
  | succ m ih =>
    rw [repeatList]
    simp only [List.cons_append, List.nil_append]
    have c1 : cvStep ⟨0, false, true, false, false⟩ Token.OpenBrace =
        .ok ⟨1, false, true, false, false⟩ := rfl
    have c2 : cvStep ⟨1, false, true, false, false⟩ Token.ClosedBrace =
        .ok ⟨0, false, true, false, false⟩ := rfl
    rw [cvRun, c1]
    simp only []
    rw [cvRun, c2]
    simp only []
    exact ih

/-- Claim C10: for every `n ≥ 1`, the input made of `n` concatenated
copies of the two-character document `{}` is accepted by `check_valid`:
the entry point tracks only brace depth and an after-comma flag, has no
terminal state, and `is_json_ended`, once set by the first balanced pair,
is never cleared, so the tokens following the root object's close are all
accepted. -/
theorem C10_concatenated_braces_accepted (n : Nat) (hn : 1 ≤ n) :
    check_valid (repeatList n ('{' :: '}' :: [])) = .ok () := by
  obtain ⟨m, rfl⟩ : ∃ m, n = m + 1 := ⟨n - 1, by omega⟩
  unfold check_valid
  have hne : repeatList (m + 1) ('{' :: '}' :: []) ≠ [] := by
    rw [repeatList]
    simp only [List.cons_append, List.nil_append]
    exact List.cons_ne_nil _ _
  have hlex : lex (repeatList (m + 1) ('{' :: '}' :: [])) =
      .ok (repeatList (m + 1) (Token.OpenBrace :: Token.ClosedBrace :: [])) := by
    unfold lex
    rw [toChunks_single _ hne (repeatList_braces_no_nl _)]
    rw [lexAll]
    rw [lexChunk_braces]
    simp only []
    rw [lexAll]
    simp only [List.append_nil]
  rw [hlex]
  simp only []
  rw [repeatList]
  simp only [List.cons_append, List.nil_append]
  have c1 : cvStep ⟨0, false, false, false, false⟩ Token.OpenBrace =
      .ok ⟨1, false, false, false, false⟩ := rfl
  have c2 : cvStep ⟨1, false, false, false, false⟩ Token.ClosedBrace =
      .ok ⟨0, false, true, false, false⟩ := rfl
  rw [cvRun, c1]
  simp only []
  rw [cvRun, c2]
  simp only []
  rw [cvRun_braces_ended m]
  rfl

/-- Claim C10 witness: two concatenated copies, the input `{}{}`, are
accepted. -/
theorem C10_concatenated_braces_accepted_witness :
    check_valid (repeatList 2 ('{' :: '}' :: [])) = .ok () :=
  C10_concatenated_braces_accepted 2 (by decide)

end RustJson
